import Mathlib

/-!
Verification development for the Zip2Text OCR pipeline.

We give a shallow embedding of the pipeline modules
(zip_handler, image_processor, vision_client, text_aggregator,
job_manager, log_formatter) and of the natural sort key from the
legacy single-file application.  External effects (the filesystem,
the zip library, the Vision API) are abstracted into a World record
of oracles; everything the Python functions compute from those
oracles is modelled as pure Lean functions, including the full
ordered trace of progress events each stage emits and a small model
of the staging directory on disk (created / present / removal count).
Python strings are modelled as Lean strings compared by code point;
case folding is modelled for ASCII, which covers all inputs used in
the development.
-/

namespace Zip2Text

/-- Python string comparison, used by list.sort(): lexicographic over
Unicode code points. -/
def pyCharsLt : List Char → List Char → Bool
  | _, [] => false
  | [], _ :: _ => true
  | a :: xs, b :: ys =>
    if a.val < b.val then true
    else if b.val < a.val then false
    else pyCharsLt xs ys

def pyStrLt (s t : String) : Bool := pyCharsLt s.data t.data

/-- Stable insertion of a string into an already sorted list, placing
the new element before the first element that is not smaller than it
(this reproduces the stability of Python list.sort). -/
def pyInsert (x : String) : List String → List String
  | [] => [x]
  | y :: ys => if pyStrLt y x then y :: pyInsert x ys else x :: y :: ys

/-- Model of Python list.sort() on a list of strings: a stable sort by
the plain (code-point lexicographic) string order.  This is the sort
that scan_for_images actually performs via found_images.sort(). -/
def pySort : List String → List String
  | [] => []
  | x :: xs => pyInsert x (pySort xs)

/-- One token of a natural sort key: a maximal digit run read as an
integer, or a maximal non-digit run lowercased. -/
inductive NatTok
  | num (n : Nat)
  | text (cs : List Char)
deriving DecidableEq

/-- Decimal value of a digit run, as int() computes it. -/
def digitsVal (cs : List Char) : Nat :=
  cs.foldl (fun n c => n * 10 + (c.toNat - 48)) 0

/-- Tokenization performed by re.split with a capturing digit group:
the result alternates (possibly empty) non-digit runs with digit runs,
starting and ending with a non-digit run; non-digit runs are
lowercased and digit runs are read as integers.  Structural recursion
on a fuel argument that is at least the length of the input. -/
def natTokensAux : Nat → List Char → List NatTok
  | 0, _ => []
  | fuel + 1, cs =>
    let t := cs.takeWhile (fun c => !c.isDigit)
    let r := cs.dropWhile (fun c => !c.isDigit)
    match r with
    | [] => [NatTok.text (t.map Char.toLower)]
    | _ =>
      let d := r.takeWhile Char.isDigit
      let r2 := r.dropWhile Char.isDigit
      NatTok.text (t.map Char.toLower) :: NatTok.num (digitsVal d) :: natTokensAux fuel r2

/-- natural_sort_key from the legacy application module (and the
NaturalOrdering of the spec): split into maximal digit and non-digit
runs, digits as integers, text lowercased. -/
def natural_sort_key (s : String) : List NatTok :=
  natTokensAux (s.data.length + 1) s.data

/-- Comparison of single key tokens, as Python compares list elements.
Keys produced by natural_sort_key alternate text and number tokens
starting with a text token, so two keys always agree on the
constructor at every shared position; the mixed cases below are
unreachable for such keys (Python would raise TypeError there) and
are given an arbitrary value. -/
def tokLt : NatTok → NatTok → Bool
  | .num a, .num b => a < b
  | .text a, .text b => pyCharsLt a b
  | .num _, .text _ => true
  | .text _, .num _ => false

/-- Python list comparison (lexicographic, shorter list first on equal
prefixes) over key tokens. -/
def keyLt : List NatTok → List NatTok → Bool
  | _, [] => false
  | [], _ :: _ => true
  | a :: xs, b :: ys =>
    if tokLt a b then true
    else if tokLt b a then false
    else keyLt xs ys

/-- The natural strict order on strings induced by natural_sort_key. -/
def natural_lt (s t : String) : Bool :=
  keyLt (natural_sort_key s) (natural_sort_key t)

/-- os.path.basename for POSIX paths: the part after the last slash. -/
def basename (s : String) : String :=
  String.mk ((s.data.reverse.takeWhile (fun c => c ≠ '/')).reverse)

/-- The extension part of os.path.splitext on a bare file name:
everything from the last dot on, unless every character before that
dot is itself a dot (so .bashrc style names have no extension). -/
def extCharsOf (cs : List Char) : List Char :=
  let rev := cs.reverse
  let extRev := rev.takeWhile (fun c => c ≠ '.')
  if extRev.length = rev.length then []
  else
    let stem := rev.drop (extRev.length + 1)
    if stem.all (fun c => c = '.') then []
    else '.' :: extRev.reverse

/-- os.path.splitext(filename)[1].lower() as computed in
scan_for_images (ASCII lowering). -/
def extLower (name : String) : String :=
  String.mk ((extCharsOf name.data).map Char.toLower)

/-- SUPPORTED_FORMATS of the pipeline image processor. -/
def SUPPORTED_FORMATS : List String := [".jpg", ".jpeg", ".png", ".webp"]

/-- Python dict lookup dict.get(k): the value of the entry with key k,
if any.  Dictionaries are modelled as association lists in insertion
order with unique keys. -/
def dictGet {α : Type} (d : List (String × α)) (k : String) : Option α :=
  match d.find? (fun kv => kv.1 == k) with
  | some kv => some kv.2
  | none => none

/-- Python dict assignment d[k] = v: replaces the value in place when
the key is present (keeping its position), appends otherwise. -/
def dictInsert {α : Type} (d : List (String × α)) (k : String) (v : α) :
    List (String × α) :=
  if d.any (fun kv => kv.1 == k) then
    d.map (fun kv => if kv.1 == k then (k, v) else kv)
  else d ++ [(k, v)]

/-- Python del d[k] restricted to the modelled dictionaries. -/
def dictErase {α : Type} (d : List (String × α)) (k : String) :
    List (String × α) :=
  d.filter (fun kv => kv.1 != k)

/-- The Severity enumeration of the log formatter. -/
inductive Severity
  | INFO
  | SUCCESS
  | WARNING
  | ERROR
  | DEBUG
deriving DecidableEq

/-- Severity.value, the wire string of each enum member. -/
def Severity.value : Severity → String
  | .INFO => "INFO"
  | .SUCCESS => "SUCCESS"
  | .WARNING => "WARNING"
  | .ERROR => "ERROR"
  | .DEBUG => "DEBUG"

/-- Primitive values carried in an event data payload (every payload
the pipeline emits holds only strings and non-negative integers). -/
inductive PyVal
  | str (s : String)
  | int (n : Nat)
deriving DecidableEq

/-- A top-level field value of the formatted event record: a string or
the nested data object. -/
inductive FieldVal
  | str (s : String)
  | obj (d : List (String × PyVal))
deriving DecidableEq

/-- One progress event as handed to EventStreamer.emit_event: the
machine-readable name, the coarse status string, the severity, the
human-readable message and the structured payload (empty when the
caller passed no data). -/
structure Event where
  event : String
  status : String
  severity : Severity
  message : String
  data : List (String × PyVal)
deriving DecidableEq

/-- Event without a data payload. -/
def mkEv (n s : String) (sev : Severity) (m : String) : Event :=
  ⟨n, s, sev, m, []⟩

/-- Event with a data payload. -/
def mkEvD (n s : String) (sev : Severity) (m : String)
    (d : List (String × PyVal)) : Event :=
  ⟨n, s, sev, m, d⟩

/-- format_event of the log formatter: builds the standardized record
sent to subscribers.  The tsIso argument stands for the string
datetime.datetime.utcnow().isoformat(); the code appends the literal
Z marker for UTC.  A missing data argument becomes an empty object. -/
def format_event (tsIso : String) (event_name : String) (status : String)
    (severity : Severity) (message : String)
    (data : Option (List (String × PyVal))) : List (String × FieldVal) :=
  let d := match data with
    | none => []
    | some d => d
  [("timestamp", FieldVal.str (tsIso ++ "Z")),
   ("event", FieldVal.str event_name),
   ("status", FieldVal.str status),
   ("severity", FieldVal.str severity.value),
   ("message", FieldVal.str message),
   ("data", FieldVal.obj d)]

/-- The oracles a job run depends on: the uploaded file (its base
name and whether zipfile.is_zipfile accepts it), the archive entries
and whether extraction raises at some entry index (and whether that
exception is BadZipFile), whether tempfile.mkdtemp succeeds, the
(directory, filename) pairs os.walk yields under the staging
directory, whether the Vision client initializes, and the outcome of
the per-image document_text_detection call. -/
structure World where
  zipName : String
  isZip : Bool
  entries : List String
  extractFailAt : Option Nat
  extractIsBadZip : Bool
  mkdtempOk : Bool
  files : List (String × String)
  clientInit : Except String Unit
  ocrCall : String → Except String String

/-- State of the staging directory on disk: whether it was ever
created, whether it is currently present, and how many times
shutil.rmtree was called on it. -/
structure Disk where
  created : Bool
  present : Bool
  removals : Nat
deriving DecidableEq

/-- The exceptions handle_zip_file can raise: ValueError for an
invalid archive, ValueError for a BadZipFile during extraction, and
any other exception re-raised unchanged. -/
inductive ZipErr
  | validation (msg : String)
  | badZip (msg : String)
  | other (msg : String)
deriving DecidableEq

/-- The per-entry extraction loop of handle_zip_file: one
FILE_EXTRACTED event per entry extracted; stops with no further
events (and reports failure) at the entry whose extraction raises. -/
def extract_loop (failAt : Option Nat) : Nat → List String → List Event × Bool
  | _, [] => ([], true)
  | i, m :: ms =>
    if failAt = some i then ([], false)
    else
      let (evs, ok) := extract_loop failAt (i + 1) ms
      (mkEvD "FILE_EXTRACTED" "SUCCESS" .INFO ("Extracted: " ++ m)
        [("filename", .str m)] :: evs, ok)

/-- handle_zip_file: validates with zipfile.is_zipfile before any
directory is created, then creates the staging directory and extracts
entry by entry; on an extraction exception it removes the partially
populated staging directory, emits the EXTRACTION FAILED event and
raises (ValueError for BadZipFile, the original exception otherwise).
Returns the raised exception or unit, the emitted events in order,
and the resulting disk state. -/
def handle_zip_file (w : World) : Except ZipErr Unit × List Event × Disk :=
  let v0 := mkEv "VALIDATION" "RUNNING" .INFO "Validating uploaded file..."
  if !w.isZip then
    (.error (.validation "Uploaded file is not a valid ZIP archive."),
     [v0, mkEv "VALIDATION" "FAILED" .ERROR "File is not a valid ZIP archive."],
     ⟨false, false, 0⟩)
  else
    let v1 := mkEv "VALIDATION" "SUCCESS" .SUCCESS "File validation successful."
    if !w.mkdtempOk then
      (.error (.other "Failed to create temp directory"), [v0, v1],
       ⟨false, false, 0⟩)
    else
      let e0 := mkEv "EXTRACTION" "RUNNING" .INFO
        "Starting extraction to temporary directory..."
      let (evs, ok) := extract_loop w.extractFailAt 0 w.entries
      if ok then
        (.ok (),
         [v0, v1, e0] ++ evs ++
           [mkEv "EXTRACTION" "SUCCESS" .SUCCESS
             ("Extraction complete. Extracted " ++ toString w.entries.length ++ " items.")],
         ⟨true, true, 0⟩)
      else if w.extractIsBadZip then
        (.error (.badZip "File is a corrupt or bad ZIP archive"),
         [v0, v1, e0] ++ evs ++
           [mkEv "EXTRACTION" "FAILED" .ERROR "File is a corrupt ZIP archive."],
         ⟨true, false, 1⟩)
      else
        (.error (.other "extraction error"),
         [v0, v1, e0] ++ evs ++
           [mkEv "EXTRACTION" "FAILED" .ERROR
             "An unexpected error occurred during extraction."],
         ⟨true, false, 1⟩)

/-- Whether a walked file has a supported image extension. -/
def isSupported (p : String × String) : Bool :=
  SUPPORTED_FORMATS.contains (extLower p.2)

/-- The event scan_for_images emits for one walked file. -/
def scan_event (p : String × String) : Event :=
  if isSupported p then
    mkEvD "IMAGE_FOUND" "SUCCESS" .INFO ("Found image: " ++ p.2)
      [("filename", .str p.2)]
  else
    mkEvD "FILE_SKIPPED" "RUNNING" .DEBUG ("Skipped non-image file: " ++ p.2)
      [("filename", .str p.2)]

/-- scan_for_images: walks the staging directory, keeps the files
whose lowercased extension is supported, collecting their full paths
os.path.join(root, filename), and finally sorts the collected list
with plain found_images.sort() before returning it with its length.
Also returns the emitted events in order. -/
def scan_for_images (files : List (String × String)) :
    (List String × Nat) × List Event :=
  let s0 := mkEv "IMAGE_SCAN" "RUNNING" .INFO
    "Scanning extracted files for supported images..."
  let mid := files.map scan_event
  let found := (files.filter isSupported).map (fun p => p.1 ++ "/" ++ p.2)
  let sorted := pySort found
  let n := sorted.length
  let skipped := files.length - found.length
  let msg := "Scan complete. Found " ++ toString n ++ " supported images." ++
    (if skipped > 0 then " Skipped " ++ toString skipped ++ " other files." else "")
  ((sorted, n),
   [s0] ++ mid ++
     [mkEvD "IMAGE_SCAN" "SUCCESS" .SUCCESS msg
       [("image_count", .int n), ("skipped_count", .int skipped)]])

/-- The string perform_ocr_on_images records for a page: the text the
recognition call returned, or the error placeholder string written
into the results dictionary when the call raised. -/
def ocr_outcome (w : World) (p : String) : String :=
  match w.ocrCall p with
  | .ok t => t
  | .error _ =>
    "[Error processing " ++ basename p ++ ": See server logs for details]"

/-- The per-page events of the recognition loop: an OCR_STARTED event
for each page in order, followed by OCR_SUCCESS or OCR_FAILED for
that page; i is the zero-based index of the first remaining page. -/
def ocr_page_events (w : World) (total : Nat) : Nat → List String → List Event
  | _, [] => []
  | i, p :: ps =>
    let fn := basename p
    let started := mkEvD "OCR_STARTED" "RUNNING" .INFO
      ("(" ++ toString (i + 1) ++ "/" ++ toString total ++ ") Processing: " ++ fn)
      [("filename", .str fn), ("current", .int (i + 1)), ("total", .int total)]
    let res :=
      match w.ocrCall p with
      | .ok _ => mkEvD "OCR_SUCCESS" "SUCCESS" .SUCCESS
          ("(" ++ toString (i + 1) ++ "/" ++ toString total ++
            ") Successfully processed: " ++ fn)
          [("filename", .str fn)]
      | .error e => mkEvD "OCR_FAILED" "FAILED" .ERROR
          ("(" ++ toString (i + 1) ++ "/" ++ toString total ++
            ") Failed to process: " ++ fn ++ ". Error: " ++ e)
          [("filename", .str fn), ("error", .str e)]
    started :: res :: ocr_page_events w total (i + 1) ps

/-- The results dictionary the recognition loop builds: one entry per
page, assigned in page order (dictionary assignment semantics). -/
def ocr_results_map (w : World) (pages : List String) : List (String × String) :=
  pages.foldl (fun acc p => dictInsert acc p (ocr_outcome w p)) []

/-- perform_ocr_on_images: acquires the Vision client first; if that
raises, emits the OCR_PIPELINE FAILED event and re-raises without
touching any page.  Otherwise iterates every page in order, isolating
per-page failures as placeholder entries, and ends with the
OCR_PIPELINE summary event. -/
def perform_ocr_on_images (pages : List String) (w : World) :
    Except String (List (String × String)) × List Event :=
  let o0 := mkEv "OCR_PIPELINE" "RUNNING" .INFO
    ("Starting OCR process for " ++ toString pages.length ++ " images...")
  match w.clientInit with
  | .error e =>
    (.error e,
     [o0, mkEv "OCR_PIPELINE" "FAILED" .ERROR
       ("Configuration error: Could not initialize Vision API. Please check server credentials. Error: " ++ e)])
  | .ok _ =>
    (.ok (ocr_results_map w pages),
     [o0] ++ ocr_page_events w pages.length 0 pages ++
       [mkEv "OCR_PIPELINE" "SUCCESS" .SUCCESS "Finished processing all images."])

/-- Python truthiness of the value dict.get returned: false for a
missing key and for the empty string. -/
def truthy (o : Option String) : Bool :=
  match o with
  | some t => t != ""
  | none => false

/-- aggregate_text_results: walks the sorted page list, appends the
looked-up text of each page whenever that text is truthy, and records
a missing-outcome warning (logging.warning) for every other page;
joins the collected parts with a blank-line separator.  Returns the
document, the warned pages in order, and the emitted events. -/
def aggregate_text_results (sorted_image_paths : List String)
    (ocr_results : List (String × String)) :
    String × List String × List Event :=
  let a0 := mkEv "AGGREGATION" "RUNNING" .INFO
    "Aggregating text from all processed images..."
  let parts := sorted_image_paths.filterMap (fun p =>
    let t := dictGet ocr_results p
    if truthy t then t else none)
  let warned := sorted_image_paths.filter (fun p => !truthy (dictGet ocr_results p))
  (String.intercalate "\n\n" parts, warned,
   [a0, mkEv "AGGREGATION" "SUCCESS" .SUCCESS "Text aggregation complete."])

/-- The three terminal stages of a job. -/
inductive Terminal
  | COMPLETED
  | WARNING_NO_PAGES
  | FAILED
deriving DecidableEq

/-- Everything observable about one run_job call: the full ordered
event trace, the terminal stage reached, the returned string, the
final document (present only on the COMPLETED path) and the disk
state of the staging directory. -/
structure RunResult where
  events : List Event
  terminal : Terminal
  retVal : String
  finalText : Option String
  disk : Disk
deriving DecidableEq

/-- The finally block of run_job: removes the staging directory when
it is still present. -/
def cleanup (d : Disk) : Disk :=
  if d.present then ⟨d.created, false, d.removals + 1⟩ else d

/-- run_job: emits JOB_STARTED, drives the four pipeline stages in
order, converts each failure mode into the matching terminal event
(ValueError to the validation message, anything else to the sanitized
generic message), short-circuits to JOB_WARNING when no page was
discovered, and runs the finally cleanup on the paths where the
staging directory variable was assigned.  When handle_zip_file raised,
the Python local holding the directory was never assigned, so the
finally block does not remove anything on that path (the handler
itself already removed the directory on its failure path). -/
def run_job (w : World) : RunResult :=
  let s0 := mkEv "JOB_STARTED" "RUNNING" .INFO
    ("Processing new job for file: " ++ w.zipName)
  match handle_zip_file w with
  | (.error (.validation m), zevs, d) =>
    { events := s0 :: zevs ++
        [mkEv "JOB_FAILED" "FAILED" .ERROR ("A validation error occurred: " ++ m)],
      terminal := .FAILED, retVal := "Error: " ++ m, finalText := none, disk := d }
  | (.error (.badZip m), zevs, d) =>
    { events := s0 :: zevs ++
        [mkEv "JOB_FAILED" "FAILED" .ERROR ("A validation error occurred: " ++ m)],
      terminal := .FAILED, retVal := "Error: " ++ m, finalText := none, disk := d }
  | (.error (.other _), zevs, d) =>
    { events := s0 :: zevs ++
        [mkEv "JOB_FAILED" "FAILED" .ERROR "An unexpected server error occurred."],
      terminal := .FAILED,
      retVal := "An unexpected server error occurred. Please try again.",
      finalText := none, disk := d }
  | (.ok _, zevs, d) =>
    let ((image_paths, image_count), sevs) := scan_for_images w.files
    if image_count = 0 then
      let msg := "Process complete. No supported image files (.jpg, .png, .webp) were found."
      { events := s0 :: zevs ++ sevs ++ [mkEv "JOB_WARNING" "COMPLETED" .WARNING msg],
        terminal := .WARNING_NO_PAGES, retVal := msg, finalText := none,
        disk := cleanup d }
    else
      match perform_ocr_on_images image_paths w with
      | (.error _, oevs) =>
        { events := s0 :: zevs ++ sevs ++ oevs ++
            [mkEv "JOB_FAILED" "FAILED" .ERROR "An unexpected server error occurred."],
          terminal := .FAILED,
          retVal := "An unexpected server error occurred. Please try again.",
          finalText := none, disk := cleanup d }
      | (.ok results, oevs) =>
        let (final_text, rest) := aggregate_text_results image_paths results
        { events := s0 :: zevs ++ sevs ++ oevs ++ rest.2 ++
            [mkEvD "JOB_COMPLETED" "SUCCESS" .SUCCESS
              "Successfully processed all images."
              [("final_text", .str final_text)]],
          terminal := .COMPLETED, retVal := final_text,
          finalText := some final_text, disk := cleanup d }

/-- Whether an event is one of the three terminal events of a job. -/
def isTerminalEvent (e : Event) : Bool :=
  ["JOB_COMPLETED", "JOB_WARNING", "JOB_FAILED"].contains e.event

/-- Whether the status string of an event is one of the four coarse
statuses of the specified wire contract. -/
def statusOk (e : Event) : Bool :=
  ["RUNNING", "SUCCESS", "FAILED", "COMPLETED"].contains e.status

/-- An event that every pipeline stage (as opposed to the orchestrator
terminal transition) may emit: its status is in the contract set and
it is not a terminal event. -/
def tameEv (e : Event) : Bool :=
  statusOk e && !isTerminalEvent e

/-- Whether the extraction loop runs to completion (the failure oracle
points at no entry of the archive). -/
def extraction_ok (w : World) : Bool :=
  match w.extractFailAt with
  | none => true
  | some i => decide (w.entries.length ≤ i)

/-- Whether extraction fails partway (the failure oracle points at a
real entry). -/
def extraction_fails (w : World) : Bool :=
  match w.extractFailAt with
  | none => false
  | some i => decide (i < w.entries.length)

/-- Number of supported images under the staging directory. -/
def supported_count (w : World) : Nat :=
  (w.files.filter isSupported).length

/-! ### Generic helper lemmas -/

theorem tame_mk (n s : String) (sev : Severity) (m : String)
    (d : List (String × PyVal))
    (h1 : (["RUNNING", "SUCCESS", "FAILED", "COMPLETED"].contains s) = true)
    (h2 : (["JOB_COMPLETED", "JOB_WARNING", "JOB_FAILED"].contains n) = false) :
    tameEv (mkEvD n s sev m d) = true := by
  have hrfl : tameEv (mkEvD n s sev m d)
      = ((["RUNNING", "SUCCESS", "FAILED", "COMPLETED"].contains s)
          && !(["JOB_COMPLETED", "JOB_WARNING", "JOB_FAILED"].contains n)) := rfl
  rw [hrfl, h1, h2]
  rfl

theorem tame_mkEv (n s : String) (sev : Severity) (m : String)
    (h1 : (["RUNNING", "SUCCESS", "FAILED", "COMPLETED"].contains s) = true)
    (h2 : (["JOB_COMPLETED", "JOB_WARNING", "JOB_FAILED"].contains n) = false) :
    tameEv (mkEv n s sev m) = true := by
  have hrfl : tameEv (mkEv n s sev m)
      = ((["RUNNING", "SUCCESS", "FAILED", "COMPLETED"].contains s)
          && !(["JOB_COMPLETED", "JOB_WARNING", "JOB_FAILED"].contains n)) := rfl
  rw [hrfl, h1, h2]
  rfl

theorem count_term_zero_of_tame {l : List Event} (h : l.all tameEv = true) :
    l.countP isTerminalEvent = 0 := by
  rw [List.countP_eq_zero]
  intro e he
  have ht := List.all_eq_true.mp h e he
  simp [tameEv] at ht
  simp [ht.2]

theorem all_status_of_tame {l : List Event} (h : l.all tameEv = true) :
    l.all statusOk = true := by
  rw [List.all_eq_true]
  intro e he
  have ht := List.all_eq_true.mp h e he
  simp [tameEv] at ht
  exact ht.1

theorem count_named_zero_of_tame {l : List Event} (n : String)
    (hn : (["JOB_COMPLETED", "JOB_WARNING", "JOB_FAILED"].contains n) = true)
    (h : l.all tameEv = true) :
    l.countP (fun e => e.event == n) = 0 := by
  rw [List.countP_eq_zero]
  intro e he
  have ht := List.all_eq_true.mp h e he
  simp [tameEv] at ht
  intro hpe
  have hev : e.event = n := by simpa using hpe
  have hterm : isTerminalEvent e = true := by
    simp only [isTerminalEvent]
    rw [hev]
    exact hn
  rw [ht.2] at hterm
  exact Bool.false_ne_true hterm

/-! ### Dictionary lemmas -/

theorem dictGet_append_self {α : Type} (d : List (String × α)) (k : String) (v : α)
    (hd : d.all (fun kv => kv.1 != k) = true) :
    dictGet (d ++ [(k, v)]) k = some v := by
  induction d with
  | nil => simp [dictGet, List.find?]
  | cons kv d ih =>
    simp only [List.all_cons, Bool.and_eq_true] at hd
    have h1 : (kv.1 == k) = false := by
      simpa [bne] using hd.1
    simp only [List.cons_append, dictGet, List.find?, h1]
    exact ih hd.2

theorem dictGet_map_replace {α : Type} (d : List (String × α)) (k : String) (v : α)
    (hd : d.any (fun kv => kv.1 == k) = true) :
    dictGet (d.map (fun kv => if kv.1 == k then (k, v) else kv)) k = some v := by
  induction d with
  | nil => simp at hd
  | cons kv d ih =>
    by_cases h : (kv.1 == k) = true
    · simp only [List.map_cons, h, if_true, dictGet, List.find?, beq_self_eq_true]
    · simp only [List.any_cons, h, Bool.false_or] at hd
      have h2 : (kv.1 == k) = false := by simpa using h
      simp only [List.map_cons, h2, if_false, Bool.false_eq_true, dictGet, List.find?]
      simpa [dictGet] using ih hd

theorem dictGet_insert_self {α : Type} (d : List (String × α)) (k : String) (v : α) :
    dictGet (dictInsert d k v) k = some v := by
  unfold dictInsert
  cases hA : d.any (fun kv => kv.1 == k) with
  | true =>
    simp only [if_true]
    exact dictGet_map_replace d k v hA
  | false =>
    simp only [Bool.false_eq_true, if_false]
    apply dictGet_append_self
    rw [List.all_eq_true]
    intro kv hkv
    cases hk : (kv.1 == k) with
    | true =>
      have : d.any (fun kv => kv.1 == k) = true := List.any_eq_true.mpr ⟨kv, hkv, hk⟩
      rw [hA] at this
      exact absurd this Bool.false_ne_true
    | false => simp [bne, hk]

theorem find?_map_replace {α : Type} (d : List (String × α)) (k k2 : String) (v : α)
    (hne : k2 ≠ k) :
    (d.map (fun kv => if kv.1 == k then (k, v) else kv)).find? (fun kv => kv.1 == k2)
      = d.find? (fun kv => kv.1 == k2) := by
  have hkk2 : (k == k2) = false := by
    simp only [beq_eq_false_iff_ne]
    exact fun hEq => hne hEq.symm
  induction d with
  | nil => rfl
  | cons kv d ih =>
    by_cases hk : (kv.1 == k) = true
    · have hkv2 : (kv.1 == k2) = false := by
        have : kv.1 = k := by simpa using hk
        rw [this]
        exact hkk2
      simp only [List.map_cons, hk, if_true, List.find?, hkk2, hkv2]
      exact ih
    · have hkf : (kv.1 == k) = false := by simpa using hk
      by_cases hp : (kv.1 == k2) = true
      · simp only [List.map_cons, hkf, Bool.false_eq_true, if_false, List.find?, hp]
      · have hpf : (kv.1 == k2) = false := by simpa using hp
        simp only [List.map_cons, hkf, Bool.false_eq_true, if_false, List.find?, hpf]
        exact ih

theorem find?_append_single {α : Type} (d : List (String × α)) (k k2 : String) (v : α)
    (hne : k2 ≠ k) :
    (d ++ [(k, v)]).find? (fun kv => kv.1 == k2) = d.find? (fun kv => kv.1 == k2) := by
  have hkk2 : (k == k2) = false := by
    simp only [beq_eq_false_iff_ne]
    exact fun hEq => hne hEq.symm
  induction d with
  | nil => simp [List.find?, hkk2]
  | cons kv d ih =>
    by_cases hp : (kv.1 == k2) = true
    · simp only [List.cons_append, List.find?, hp]
    · have hpf : (kv.1 == k2) = false := by simpa using hp
      simp only [List.cons_append, List.find?, hpf]
      exact ih

theorem dictGet_insert_ne {α : Type} (d : List (String × α)) (k k2 : String) (v : α)
    (hne : k2 ≠ k) :
    dictGet (dictInsert d k v) k2 = dictGet d k2 := by
  unfold dictInsert dictGet
  cases hA : d.any (fun kv => kv.1 == k) with
  | true => simp only [if_true, find?_map_replace d k k2 v hne]
  | false => simp only [Bool.false_eq_true, if_false, find?_append_single d k k2 v hne]


/-! ### Stage event lemmas -/

theorem extract_loop_tame (failAt : Option Nat) :
    ∀ (i : Nat) (ms : List String), ((extract_loop failAt i ms).1).all tameEv = true := by
  intro i ms
  induction ms generalizing i with
  | nil => simp [extract_loop]
  | cons m ms ih =>
    rw [extract_loop]
    by_cases h : failAt = some i
    · simp [h]
    · simp only [h, if_false]
      rcases hL : extract_loop failAt (i + 1) ms with ⟨evs, ok⟩
      have hT := ih (i + 1)
      rw [hL] at hT
      simp only [List.all_cons, Bool.and_eq_true]
      refine ⟨?_, hT⟩
      rfl

theorem zip_events_tame (w : World) :
    ((handle_zip_file w).2.1).all tameEv = true := by
  unfold handle_zip_file
  by_cases h1 : w.isZip
  · by_cases h2 : w.mkdtempOk
    · simp only [h1, h2, Bool.not_true, Bool.false_eq_true, if_false]
      rcases hL : extract_loop w.extractFailAt 0 w.entries with ⟨evs, ok⟩
      have hT := extract_loop_tame w.extractFailAt 0 w.entries
      rw [hL] at hT
      cases ok with
      | true =>
        simp only [if_true, List.all_cons, List.all_append, List.all_nil,
          Bool.and_true, Bool.and_eq_true]
        repeat' apply And.intro
        all_goals first | exact hT | rfl
      | false =>
        by_cases h3 : w.extractIsBadZip
        · simp only [h3, Bool.false_eq_true, if_false, if_true, List.all_cons,
            List.all_append, List.all_nil, Bool.and_true, Bool.and_eq_true]
          repeat' apply And.intro
          all_goals first | exact hT | rfl
        · simp only [h3, Bool.false_eq_true, if_false, List.all_cons,
            List.all_append, List.all_nil, Bool.and_true, Bool.and_eq_true]
          repeat' apply And.intro
          all_goals first | exact hT | rfl
    · have h2f : w.mkdtempOk = false := by simpa using h2
      simp only [h1, h2f, Bool.not_true, Bool.not_false, Bool.false_eq_true,
        if_false, if_true, List.all_cons, List.all_nil, Bool.and_true, Bool.and_eq_true]
      repeat' apply And.intro
      all_goals rfl
  · have h1f : w.isZip = false := by simpa using h1
    simp only [h1f, Bool.not_false, if_true, List.all_cons, List.all_nil,
      Bool.and_true, Bool.and_eq_true]
    repeat' apply And.intro
    all_goals rfl

theorem scan_event_tame (p : String × String) : tameEv (scan_event p) = true := by
  unfold scan_event
  by_cases h : isSupported p
  · simp only [h, if_true]
    rfl
  · simp only [h, if_false]
    rfl

theorem scan_events_tame (files : List (String × String)) :
    ((scan_for_images files).2).all tameEv = true := by
  unfold scan_for_images
  simp only [List.all_cons, List.all_append, List.all_nil, Bool.and_true,
    Bool.and_eq_true, List.all_map]
  have hmid : (files.map scan_event).all tameEv = true := by
    rw [List.all_eq_true]
    intro e he
    rcases List.mem_map.mp he with ⟨p, hp, hpe⟩
    rw [← hpe]
    exact scan_event_tame p
  repeat' apply And.intro
  all_goals first | exact hmid | rfl

theorem ocr_page_events_tame (w : World) (total : Nat) :
    ∀ (i : Nat) (ps : List String), (ocr_page_events w total i ps).all tameEv = true := by
  intro i ps
  induction ps generalizing i with
  | nil => simp [ocr_page_events]
  | cons p ps ih =>
    rw [ocr_page_events]
    simp only [List.all_cons, Bool.and_eq_true]
    refine ⟨?_, ?_, ih (i + 1)⟩
    · rfl
    · cases hc : w.ocrCall p with
      | ok t => rfl
      | error e => rfl

theorem ocr_events_tame (pages : List String) (w : World) :
    ((perform_ocr_on_images pages w).2).all tameEv = true := by
  unfold perform_ocr_on_images
  cases hc : w.clientInit with
  | error e =>
    simp only [List.all_cons, List.all_nil, Bool.and_true, Bool.and_eq_true]
    repeat' apply And.intro
    all_goals rfl
  | ok u =>
    simp only [List.all_cons, List.all_append, List.all_nil, Bool.and_true,
      Bool.and_eq_true]
    repeat' apply And.intro
    all_goals first | exact ocr_page_events_tame w pages.length 0 pages | rfl

theorem agg_events_tame (paths : List String) (res : List (String × String)) :
    ((aggregate_text_results paths res).2.2).all tameEv = true := by
  unfold aggregate_text_results
  simp only [List.all_cons, List.all_nil, Bool.and_true, Bool.and_eq_true]
  repeat' apply And.intro
  all_goals rfl


/-! ### Loop and sort auxiliary lemmas -/

theorem extract_loop_ok (failAt : Option Nat) :
    ∀ (i : Nat) (ms : List String),
      (∀ j, failAt = some j → i + ms.length ≤ j) →
      (extract_loop failAt i ms).2 = true := by
  intro i ms
  induction ms generalizing i with
  | nil => intro _; rfl
  | cons m ms ih =>
    intro h
    rw [extract_loop]
    by_cases hf : failAt = some i
    · have := h i hf
      simp only [List.length_cons] at this
      omega
    · simp only [hf, if_false]
      rcases hL : extract_loop failAt (i + 1) ms with ⟨evs, ok⟩
      have hrec := ih (i + 1) (fun j hj => by
        have := h j hj
        simp only [List.length_cons] at this
        omega)
      rw [hL] at hrec
      simp only [hL]
      simpa using hrec

theorem extract_loop_fail (failAt : Option Nat) :
    ∀ (i : Nat) (ms : List String) (j : Nat),
      failAt = some j → i ≤ j → j < i + ms.length →
      (extract_loop failAt i ms).2 = false := by
  intro i ms
  induction ms generalizing i with
  | nil =>
    intro j _ h1 h2
    simp only [List.length_nil, Nat.add_zero] at h2
    omega
  | cons m ms ih =>
    intro j hj h1 h2
    rw [extract_loop]
    by_cases heq : j = i
    · rw [heq] at hj
      simp [hj]
    · have hne : ¬ failAt = some i := by
        rw [hj]
        simp only [Option.some.injEq]
        exact heq
      simp only [hne, if_false]
      rcases hL : extract_loop failAt (i + 1) ms with ⟨evs, ok⟩
      have hrec := ih (i + 1) j hj (by omega) (by
        simp only [List.length_cons] at h2
        omega)
      rw [hL] at hrec
      simp only [hL]
      simpa using hrec

theorem pyInsert_length (x : String) (l : List String) :
    (pyInsert x l).length = l.length + 1 := by
  induction l with
  | nil => rfl
  | cons y ys ih =>
    rw [pyInsert]
    by_cases h : pyStrLt y x = true
    · simp [h, ih]
    · have hf : pyStrLt y x = false := by simpa using h
      simp [hf]

theorem pySort_length (l : List String) : (pySort l).length = l.length := by
  induction l with
  | nil => rfl
  | cons x xs ih =>
    rw [pySort, pyInsert_length, ih]
    rfl

theorem scan_count (files : List (String × String)) :
    (scan_for_images files).1.2 = (files.filter isSupported).length := by
  unfold scan_for_images
  simp only [pySort_length, List.length_map]

/-! ### Branch characterizations of run_job -/

theorem run_job_eq_validation (w : World) (m : String) (zevs : List Event) (d : Disk)
    (h : handle_zip_file w = (.error (.validation m), zevs, d)) :
    run_job w =
      ⟨mkEv "JOB_STARTED" "RUNNING" .INFO ("Processing new job for file: " ++ w.zipName) ::
          zevs ++ [mkEv "JOB_FAILED" "FAILED" .ERROR ("A validation error occurred: " ++ m)],
        .FAILED, "Error: " ++ m, none, d⟩ := by
  unfold run_job
  rw [h]

theorem run_job_eq_badzip (w : World) (m : String) (zevs : List Event) (d : Disk)
    (h : handle_zip_file w = (.error (.badZip m), zevs, d)) :
    run_job w =
      ⟨mkEv "JOB_STARTED" "RUNNING" .INFO ("Processing new job for file: " ++ w.zipName) ::
          zevs ++ [mkEv "JOB_FAILED" "FAILED" .ERROR ("A validation error occurred: " ++ m)],
        .FAILED, "Error: " ++ m, none, d⟩ := by
  unfold run_job
  rw [h]

theorem run_job_eq_other (w : World) (m : String) (zevs : List Event) (d : Disk)
    (h : handle_zip_file w = (.error (.other m), zevs, d)) :
    run_job w =
      ⟨mkEv "JOB_STARTED" "RUNNING" .INFO ("Processing new job for file: " ++ w.zipName) ::
          zevs ++ [mkEv "JOB_FAILED" "FAILED" .ERROR "An unexpected server error occurred."],
        .FAILED, "An unexpected server error occurred. Please try again.", none, d⟩ := by
  unfold run_job
  rw [h]

theorem run_job_eq_warning (w : World) (zevs : List Event) (d : Disk)
    (ips : List String) (sevs : List Event)
    (hz : handle_zip_file w = (.ok (), zevs, d))
    (hs : scan_for_images w.files = ((ips, 0), sevs)) :
    run_job w =
      ⟨mkEv "JOB_STARTED" "RUNNING" .INFO ("Processing new job for file: " ++ w.zipName) ::
          zevs ++ sevs ++
          [mkEv "JOB_WARNING" "COMPLETED" .WARNING
            "Process complete. No supported image files (.jpg, .png, .webp) were found."],
        .WARNING_NO_PAGES,
        "Process complete. No supported image files (.jpg, .png, .webp) were found.",
        none, cleanup d⟩ := by
  unfold run_job
  rw [hz, hs]
  rfl

theorem run_job_eq_ocrfail (w : World) (zevs : List Event) (d : Disk)
    (ips : List String) (n : Nat) (sevs : List Event) (e : String) (oevs : List Event)
    (hz : handle_zip_file w = (.ok (), zevs, d))
    (hs : scan_for_images w.files = ((ips, n), sevs))
    (hn : n ≠ 0)
    (ho : perform_ocr_on_images ips w = (.error e, oevs)) :
    run_job w =
      ⟨mkEv "JOB_STARTED" "RUNNING" .INFO ("Processing new job for file: " ++ w.zipName) ::
          zevs ++ sevs ++ oevs ++
          [mkEv "JOB_FAILED" "FAILED" .ERROR "An unexpected server error occurred."],
        .FAILED, "An unexpected server error occurred. Please try again.", none,
        cleanup d⟩ := by
  unfold run_job
  rw [hz, hs]
  dsimp only
  rw [if_neg hn, ho]

theorem run_job_eq_completed (w : World) (zevs : List Event) (d : Disk)
    (ips : List String) (n : Nat) (sevs : List Event)
    (results : List (String × String)) (oevs : List Event)
    (txt : String) (pr : List String × List Event)
    (hz : handle_zip_file w = (.ok (), zevs, d))
    (hs : scan_for_images w.files = ((ips, n), sevs))
    (hn : n ≠ 0)
    (ho : perform_ocr_on_images ips w = (.ok results, oevs))
    (hag : aggregate_text_results ips results = (txt, pr)) :
    run_job w =
      ⟨mkEv "JOB_STARTED" "RUNNING" .INFO ("Processing new job for file: " ++ w.zipName) ::
          zevs ++ sevs ++ oevs ++ pr.2 ++
          [mkEvD "JOB_COMPLETED" "SUCCESS" .SUCCESS "Successfully processed all images."
            [("final_text", .str txt)]],
        .COMPLETED, txt, some txt, cleanup d⟩ := by
  unfold run_job
  rw [hz, hs]
  dsimp only
  rw [if_neg hn, ho]
  dsimp only
  rw [hag]

/-! ### Trace shape helper -/

theorem trace_leaf (s0 t : Event) (mid : List Event)
    (hm : mid.all tameEv = true)
    (h0t : isTerminalEvent s0 = false)
    (h0s : statusOk s0 = true)
    (hts : statusOk t = true)
    (htt : isTerminalEvent t = true) :
    ((s0 :: (mid ++ [t])).map Event.event).head? = some s0.event
    ∧ (s0 :: (mid ++ [t])).countP isTerminalEvent = 1
    ∧ ((s0 :: (mid ++ [t])).getLast?.map isTerminalEvent) = some true
    ∧ (s0 :: (mid ++ [t])).all statusOk = true := by
  refine ⟨by simp, ?_, ?_, ?_⟩
  · simp [List.countP_cons, List.countP_append, count_term_zero_of_tame hm, h0t, htt]
  · have hlast : (s0 :: (mid ++ [t])).getLast? = some t := by
      rw [show s0 :: (mid ++ [t]) = (s0 :: mid) ++ [t] by simp]
      exact List.getLast?_concat _
    rw [hlast]
    simp [htt]
  · simp only [List.all_cons, List.all_append, List.all_nil, Bool.and_true,
      Bool.and_eq_true]
    repeat' apply And.intro
    all_goals first | exact all_status_of_tame hm | exact h0s | exact hts

/-! ### Characterizations of handle_zip_file -/

theorem hz_not_zip (w : World) (h : w.isZip = false) :
    handle_zip_file w =
      (.error (.validation "Uploaded file is not a valid ZIP archive."),
       [mkEv "VALIDATION" "RUNNING" .INFO "Validating uploaded file...",
        mkEv "VALIDATION" "FAILED" .ERROR "File is not a valid ZIP archive."],
       ⟨false, false, 0⟩) := by
  unfold handle_zip_file
  rw [h]
  rfl

theorem hz_no_tmp (w : World) (h1 : w.isZip = true) (h2 : w.mkdtempOk = false) :
    handle_zip_file w =
      (.error (.other "Failed to create temp directory"),
       [mkEv "VALIDATION" "RUNNING" .INFO "Validating uploaded file...",
        mkEv "VALIDATION" "SUCCESS" .SUCCESS "File validation successful."],
       ⟨false, false, 0⟩) := by
  unfold handle_zip_file
  rw [h1, h2]
  rfl

theorem hz_ok (w : World) (h1 : w.isZip = true) (h2 : w.mkdtempOk = true)
    (h3 : extraction_ok w = true) :
    handle_zip_file w =
      (.ok (),
       [mkEv "VALIDATION" "RUNNING" .INFO "Validating uploaded file...",
        mkEv "VALIDATION" "SUCCESS" .SUCCESS "File validation successful.",
        mkEv "EXTRACTION" "RUNNING" .INFO "Starting extraction to temporary directory..."] ++
         (extract_loop w.extractFailAt 0 w.entries).1 ++
         [mkEv "EXTRACTION" "SUCCESS" .SUCCESS
           ("Extraction complete. Extracted " ++ toString w.entries.length ++ " items.")],
       ⟨true, true, 0⟩) := by
  have hok : (extract_loop w.extractFailAt 0 w.entries).2 = true := by
    apply extract_loop_ok
    intro j hj
    unfold extraction_ok at h3
    rw [hj] at h3
    simpa using h3
  unfold handle_zip_file
  rw [h1, h2]
  rcases hL : extract_loop w.extractFailAt 0 w.entries with ⟨evs, ok⟩
  rw [hL] at hok
  simp only at hok
  rw [hok]
  rfl

theorem hz_extract_fail (w : World) (h1 : w.isZip = true) (h2 : w.mkdtempOk = true)
    (h3 : extraction_fails w = true) :
    ((handle_zip_file w).1).isOk = false
    ∧ (handle_zip_file w).2.2 = ⟨true, false, 1⟩ := by
  have hko : (extract_loop w.extractFailAt 0 w.entries).2 = false := by
    unfold extraction_fails at h3
    rcases hfa : w.extractFailAt with _ | j
    · rw [hfa] at h3
      simp at h3
    · rw [hfa] at h3
      simp only [decide_eq_true_eq] at h3
      exact extract_loop_fail (some j) 0 w.entries j rfl (Nat.zero_le j)
        (by simpa using h3)
  unfold handle_zip_file
  rw [h1, h2]
  rcases hL : extract_loop w.extractFailAt 0 w.entries with ⟨evs, ok⟩
  rw [hL] at hko
  simp only at hko
  rw [hko]
  by_cases h4 : w.extractIsBadZip
  · simp only [h4, if_true]
    exact ⟨rfl, rfl⟩
  · have h4f : w.extractIsBadZip = false := by simpa using h4
    simp only [h4f, Bool.false_eq_true, if_false]
    exact ⟨rfl, rfl⟩

/-! ### Global trace facts for run_job -/

theorem run_trace_facts (w : World) :
    ((run_job w).events.map Event.event).head? = some "JOB_STARTED"
    ∧ (run_job w).events.countP isTerminalEvent = 1
    ∧ ((run_job w).events.getLast?.map isTerminalEvent) = some true
    ∧ (run_job w).events.all statusOk = true := by
  have hz := zip_events_tame w
  rcases hzf : handle_zip_file w with ⟨r, zevs, d⟩
  rw [hzf] at hz
  simp only at hz
  rcases r with e | u
  · rcases e with m | m | m
    · rw [run_job_eq_validation w m zevs d hzf]
      have h := trace_leaf
        (mkEv "JOB_STARTED" "RUNNING" .INFO ("Processing new job for file: " ++ w.zipName))
        (mkEv "JOB_FAILED" "FAILED" .ERROR ("A validation error occurred: " ++ m))
        zevs hz rfl rfl rfl rfl
      simpa [mkEv] using h
    · rw [run_job_eq_badzip w m zevs d hzf]
      have h := trace_leaf
        (mkEv "JOB_STARTED" "RUNNING" .INFO ("Processing new job for file: " ++ w.zipName))
        (mkEv "JOB_FAILED" "FAILED" .ERROR ("A validation error occurred: " ++ m))
        zevs hz rfl rfl rfl rfl
      simpa [mkEv] using h
    · rw [run_job_eq_other w m zevs d hzf]
      have h := trace_leaf
        (mkEv "JOB_STARTED" "RUNNING" .INFO ("Processing new job for file: " ++ w.zipName))
        (mkEv "JOB_FAILED" "FAILED" .ERROR "An unexpected server error occurred.")
        zevs hz rfl rfl rfl rfl
      simpa [mkEv] using h
  · cases u
    rcases hsc : scan_for_images w.files with ⟨⟨ips, n⟩, sevs⟩
    have hsv := scan_events_tame w.files
    rw [hsc] at hsv
    simp only at hsv
    by_cases hn : n = 0
    · subst hn
      rw [run_job_eq_warning w zevs d ips sevs hzf hsc]
      have hmid : (zevs ++ sevs).all tameEv = true := by
        simp [List.all_append, hz, hsv]
      have h := trace_leaf
        (mkEv "JOB_STARTED" "RUNNING" .INFO ("Processing new job for file: " ++ w.zipName))
        (mkEv "JOB_WARNING" "COMPLETED" .WARNING
          "Process complete. No supported image files (.jpg, .png, .webp) were found.")
        (zevs ++ sevs) hmid rfl rfl rfl rfl
      simpa [mkEv, List.append_assoc] using h
    · rcases hocr : perform_ocr_on_images ips w with ⟨ro, oevs⟩
      have hov := ocr_events_tame ips w
      rw [hocr] at hov
      simp only at hov
      rcases ro with e2 | results
      · rw [run_job_eq_ocrfail w zevs d ips n sevs e2 oevs hzf hsc hn hocr]
        have hmid : (zevs ++ sevs ++ oevs).all tameEv = true := by
          simp [List.all_append, hz, hsv, hov]
        have h := trace_leaf
          (mkEv "JOB_STARTED" "RUNNING" .INFO ("Processing new job for file: " ++ w.zipName))
          (mkEv "JOB_FAILED" "FAILED" .ERROR "An unexpected server error occurred.")
          (zevs ++ sevs ++ oevs) hmid rfl rfl rfl rfl
        simpa [mkEv, List.append_assoc] using h
      · rcases hag : aggregate_text_results ips results with ⟨txt, pr⟩
        have hav := agg_events_tame ips results
        rw [hag] at hav
        simp only at hav
        rw [run_job_eq_completed w zevs d ips n sevs results oevs txt pr hzf hsc hn hocr hag]
        have hmid : (zevs ++ sevs ++ oevs ++ pr.2).all tameEv = true := by
          simp [List.all_append, hz, hsv, hov, hav]
        have h := trace_leaf
          (mkEv "JOB_STARTED" "RUNNING" .INFO ("Processing new job for file: " ++ w.zipName))
          (mkEvD "JOB_COMPLETED" "SUCCESS" .SUCCESS "Successfully processed all images."
            [("final_text", .str txt)])
          (zevs ++ sevs ++ oevs ++ pr.2) hmid rfl rfl rfl rfl
        simpa [mkEv, mkEvD, List.append_assoc] using h

/-! ### Disk facts for run_job -/

theorem extraction_fails_of_not_ok (w : World) (h : extraction_ok w = false) :
    extraction_fails w = true := by
  unfold extraction_ok at h
  unfold extraction_fails
  rcases hfa : w.extractFailAt with _ | j
  · rw [hfa] at h
    simp at h
  · rw [hfa] at h
    simp only [decide_eq_false_iff_not] at h
    simp only [decide_eq_true_eq]
    omega

theorem run_disk_facts (w : World) :
    (run_job w).disk.created = true →
    (run_job w).disk.present = false ∧ (run_job w).disk.removals = 1 := by
  cases h1 : w.isZip with
  | false =>
    rw [run_job_eq_validation w _ _ _ (hz_not_zip w h1)]
    intro hcr
    simp at hcr
  | true =>
    cases h2 : w.mkdtempOk with
    | false =>
      rw [run_job_eq_other w _ _ _ (hz_no_tmp w h1 h2)]
      intro hcr
      simp at hcr
    | true =>
      cases h3 : extraction_ok w with
      | true =>
        rcases hsc : scan_for_images w.files with ⟨⟨ips, n⟩, sevs⟩
        by_cases hn : n = 0
        · subst hn
          rw [run_job_eq_warning w _ _ ips sevs (hz_ok w h1 h2 h3) hsc]
          intro _
          exact ⟨rfl, rfl⟩
        · rcases hocr : perform_ocr_on_images ips w with ⟨ro, oevs⟩
          rcases ro with e2 | results
          · rw [run_job_eq_ocrfail w _ _ ips n sevs e2 oevs (hz_ok w h1 h2 h3) hsc hn hocr]
            intro _
            exact ⟨rfl, rfl⟩
          · rcases hag : aggregate_text_results ips results with ⟨txt, pr⟩
            rw [run_job_eq_completed w _ _ ips n sevs results oevs txt pr
              (hz_ok w h1 h2 h3) hsc hn hocr hag]
            intro _
            exact ⟨rfl, rfl⟩
      | false =>
        have hfail := extraction_fails_of_not_ok w h3
        have hx := hz_extract_fail w h1 h2 hfail
        rcases hzf : handle_zip_file w with ⟨r, zevs, d⟩
        rw [hzf] at hx
        simp only at hx
        rcases r with e | u
        · rcases e with m | m | m
          · rw [run_job_eq_validation w m zevs d hzf]
            intro _
            rw [hx.2]
            exact ⟨rfl, rfl⟩
          · rw [run_job_eq_badzip w m zevs d hzf]
            intro _
            rw [hx.2]
            exact ⟨rfl, rfl⟩
          · rw [run_job_eq_other w m zevs d hzf]
            intro _
            rw [hx.2]
            exact ⟨rfl, rfl⟩
        · exact absurd hx.1 (by simp [Except.isOk, Except.toBool])

/-! ### Recognition stage lemmas -/

theorem perform_ocr_ok (pages : List String) (w : World)
    (hc : w.clientInit = .ok ()) :
    perform_ocr_on_images pages w =
      (.ok (ocr_results_map w pages),
       [mkEv "OCR_PIPELINE" "RUNNING" .INFO
         ("Starting OCR process for " ++ toString pages.length ++ " images...")] ++
         ocr_page_events w pages.length 0 pages ++
         [mkEv "OCR_PIPELINE" "SUCCESS" .SUCCESS "Finished processing all images."]) := by
  unfold perform_ocr_on_images
  rw [hc]

theorem perform_ocr_err (pages : List String) (w : World) (e : String)
    (hc : w.clientInit = .error e) :
    perform_ocr_on_images pages w =
      (.error e,
       [mkEv "OCR_PIPELINE" "RUNNING" .INFO
         ("Starting OCR process for " ++ toString pages.length ++ " images..."),
        mkEv "OCR_PIPELINE" "FAILED" .ERROR
         ("Configuration error: Could not initialize Vision API. Please check server credentials. Error: " ++ e)]) := by
  unfold perform_ocr_on_images
  rw [hc]

theorem ocr_page_events_counts (w : World) (total : Nat) :
    ∀ (i : Nat) (ps : List String),
      (ocr_page_events w total i ps).countP (fun e => e.event == "OCR_STARTED") = ps.length
      ∧ (ocr_page_events w total i ps).countP (fun e => e.event == "OCR_FAILED")
          = ps.countP (fun p => !(w.ocrCall p).isOk)
      ∧ (ocr_page_events w total i ps).countP (fun e => e.event == "OCR_SUCCESS")
          = ps.countP (fun p => (w.ocrCall p).isOk) := by
  intro i ps
  induction ps generalizing i with
  | nil => exact ⟨rfl, rfl, rfl⟩
  | cons p ps ih =>
    rw [ocr_page_events]
    obtain ⟨ih1, ih2, ih3⟩ := ih (i + 1)
    cases hc : w.ocrCall p with
    | ok t =>
      refine ⟨?_, ?_, ?_⟩ <;>
        simp [List.countP_cons, ih1, ih2, ih3, hc, mkEvD, Except.isOk, Except.toBool]
    | error e =>
      refine ⟨?_, ?_, ?_⟩ <;>
        simp [List.countP_cons, ih1, ih2, ih3, hc, mkEvD, Except.isOk, Except.toBool]

theorem dictGet_foldl_ocr_isSome (w : World) :
    ∀ (pages : List String) (acc : List (String × String)) (p : String),
      (p ∈ pages ∨ (dictGet acc p).isSome = true) →
      (dictGet (pages.foldl (fun a q => dictInsert a q (ocr_outcome w q)) acc) p).isSome
        = true := by
  intro pages
  induction pages with
  | nil =>
    intro acc p hp
    rcases hp with hp | hp
    · exact absurd hp (List.not_mem_nil p)
    · simpa using hp
  | cons q ps ih =>
    intro acc p hp
    rw [List.foldl_cons]
    apply ih
    by_cases hpq : p = q
    · right
      rw [hpq, dictGet_insert_self]
      rfl
    · rcases hp with hp | hp
      · rcases List.mem_cons.mp hp with hEq | hMem
        · exact absurd hEq hpq
        · exact Or.inl hMem
      · right
        rw [dictGet_insert_ne acc q p (ocr_outcome w q) hpq]
        exact hp

theorem ocr_map_has_entry (w : World) (pages : List String) (p : String)
    (hp : p ∈ pages) :
    (dictGet (ocr_results_map w pages) p).isSome = true :=
  dictGet_foldl_ocr_isSome w pages [] p (Or.inl hp)

/-! ### Aggregation lemmas -/

theorem dictInsert_fresh {α : Type} (d : List (String × α)) (k : String) (v : α)
    (h : d.any (fun kv => kv.1 == k) = false) :
    dictInsert d k v = d ++ [(k, v)] := by
  unfold dictInsert
  rw [h]
  rfl

/-- With distinct pages, the recognition loop builds exactly one entry
per page, in page order. -/
theorem ocr_map_eq_of_nodup (w : World) :
    ∀ (pages : List String) (acc : List (String × String)),
      pages.Nodup →
      (∀ p ∈ pages, acc.any (fun kv => kv.1 == p) = false) →
      pages.foldl (fun a q => dictInsert a q (ocr_outcome w q)) acc
        = acc ++ pages.map (fun p => (p, ocr_outcome w p)) := by
  intro pages
  induction pages with
  | nil =>
    intro acc _ _
    simp
  | cons q ps ih =>
    intro acc hnd hfresh
    rw [List.foldl_cons, dictInsert_fresh acc q (ocr_outcome w q)
      (hfresh q (List.mem_cons_self q ps))]
    have hnd2 := (List.nodup_cons.mp hnd).2
    have hq := (List.nodup_cons.mp hnd).1
    rw [ih (acc ++ [(q, ocr_outcome w q)]) hnd2 ?_]
    · simp
    · intro p hp
      rw [List.any_append]
      have h1 : acc.any (fun kv => kv.1 == p) = false :=
        hfresh p (List.mem_cons_of_mem q hp)
      have h2 : ([(q, ocr_outcome w q)].any (fun kv => kv.1 == p)) = false := by
        simp only [List.any_cons, List.any_nil, Bool.or_false]
        simp only [beq_eq_false_iff_ne]
        intro hEq
        rw [hEq] at hq
        exact hq hp
      rw [h1, h2]
      rfl

theorem ocr_results_map_eq (w : World) (pages : List String) (hnd : pages.Nodup) :
    ocr_results_map w pages = pages.map (fun p => (p, ocr_outcome w p)) := by
  unfold ocr_results_map
  rw [ocr_map_eq_of_nodup w pages [] hnd (fun p _ => rfl)]
  simp

theorem dictGet_map_self (g : String → String) :
    ∀ (pages : List String) (p : String), p ∈ pages →
      dictGet (pages.map (fun q => (q, g q))) p = some (g p) := by
  intro pages
  induction pages with
  | nil =>
    intro p hp
    exact absurd hp (List.not_mem_nil p)
  | cons q ps ih =>
    intro p hp
    by_cases hpq : q = p
    · rw [List.map_cons]
      unfold dictGet
      rw [List.find?]
      have : ((q, g q).1 == p) = true := by
        simp [hpq]
      rw [this]
      rw [hpq]
    · rcases List.mem_cons.mp hp with hEq | hMem
      · exact absurd hEq.symm hpq
      · rw [List.map_cons]
        unfold dictGet
        rw [List.find?]
        have : ((q, g q).1 == p) = false := by
          simp only [beq_eq_false_iff_ne]
          exact hpq
        rw [this]
        have := ih p hMem
        unfold dictGet at this
        exact this

/-- The document built by the aggregator, when every page of the list
has a truthy recorded outcome given by g, is exactly the g values in
page order joined by blank lines. -/
theorem aggregate_parts (paths : List String) (res : List (String × String))
    (g : String → String)
    (h : ∀ p ∈ paths, dictGet res p = some (g p) ∧ g p ≠ "") :
    (aggregate_text_results paths res).1
      = String.intercalate "\n\n" (paths.map g) := by
  unfold aggregate_text_results
  simp only
  have hparts : (paths.filterMap (fun p =>
      let t := dictGet res p
      if truthy t then t else none)) = paths.map g := by
    induction paths with
    | nil => rfl
    | cons p ps ih =>
      have hp := h p (List.mem_cons_self p ps)
      rw [List.filterMap_cons, List.map_cons]
      simp only [hp.1]
      have htr : truthy (some (g p)) = true := by
        simp [truthy, hp.2]
      rw [htr]
      simp only [if_true]
      rw [ih (fun q hq => h q (List.mem_cons_of_mem p hq))]
  rw [hparts]

/-- The error placeholder recorded for a failed page is never the
empty string. -/
theorem placeholder_ne_empty (b : String) :
    ("[Error processing " ++ b ++ ": See server logs for details]") ≠ "" := by
  intro hEq
  have : ("[Error processing " ++ b ++ ": See server logs for details]").length = 0 := by
    rw [hEq]
    rfl
  have hlit : ("[Error processing " : String).length = 18 := rfl
  rw [String.length_append, String.length_append, hlit] at this
  omega

/-- Truthiness condition on successful recognitions: every page whose
call succeeds returned non-empty text. -/
def ocr_ok_nonempty (w : World) (pages : List String) : Bool :=
  pages.all (fun p =>
    match w.ocrCall p with
    | .ok t => t != ""
    | .error _ => true)

theorem ocr_outcome_ne_empty (w : World) (pages : List String) (p : String)
    (hp : p ∈ pages) (h : ocr_ok_nonempty w pages = true) :
    ocr_outcome w p ≠ "" := by
  have hx := List.all_eq_true.mp h p hp
  unfold ocr_outcome
  cases hc : w.ocrCall p with
  | ok t =>
    rw [hc] at hx
    simpa using hx
  | error e =>
    exact placeholder_ne_empty (basename p)

/-! ### Erasure lemmas and filterMap congruence -/

theorem dictGet_erase_self {α : Type} (d : List (String × α)) (k : String) :
    dictGet (dictErase d k) k = none := by
  induction d with
  | nil => rfl
  | cons kv d ih =>
    unfold dictErase
    rw [List.filter_cons]
    by_cases hk : (kv.1 == k) = true
    · have : (kv.1 != k) = false := by simp [bne, hk]
      rw [this]
      simp only [Bool.false_eq_true, if_false]
      exact ih
    · have hkf : (kv.1 == k) = false := by simpa using hk
      have : (kv.1 != k) = true := by simp [bne, hkf]
      rw [this]
      simp only [if_true]
      unfold dictGet
      rw [List.find?]
      rw [hkf]
      have := ih
      unfold dictErase dictGet at this
      exact this

theorem dictGet_erase_ne {α : Type} (d : List (String × α)) (k q : String)
    (hne : q ≠ k) :
    dictGet (dictErase d k) q = dictGet d q := by
  induction d with
  | nil => rfl
  | cons kv d ih =>
    unfold dictErase
    rw [List.filter_cons]
    by_cases hk : (kv.1 == k) = true
    · have hb : (kv.1 != k) = false := by simp [bne, hk]
      rw [hb]
      simp only [Bool.false_eq_true, if_false]
      have hq : (kv.1 == q) = false := by
        have : kv.1 = k := by simpa using hk
        rw [this]
        simp only [beq_eq_false_iff_ne]
        exact fun hEq => hne hEq.symm
      have hrec := ih
      unfold dictErase at hrec
      rw [hrec]
      unfold dictGet
      rw [List.find?, hq]
    · have hkf : (kv.1 == k) = false := by simpa using hk
      have hb : (kv.1 != k) = true := by simp [bne, hkf]
      rw [hb]
      simp only [if_true]
      unfold dictGet
      rw [List.find?, List.find?]
      by_cases hq : (kv.1 == q) = true
      · rw [hq]
      · have hqf : (kv.1 == q) = false := by simpa using hq
        rw [hqf]
        have hrec := ih
        unfold dictErase dictGet at hrec
        exact hrec

theorem filterMap_congr_local {α β : Type} (l : List α) (f g : α → Option β)
    (h : ∀ x ∈ l, f x = g x) : l.filterMap f = l.filterMap g := by
  induction l with
  | nil => rfl
  | cons x xs ih =>
    rw [List.filterMap_cons, List.filterMap_cons, h x (List.mem_cons_self x xs),
      ih (fun y hy => h y (List.mem_cons_of_mem x hy))]

/-! ### Concrete worlds used by witnesses and counterexamples -/

/-- A healthy one-page job: a valid archive, one supported image,
working credentials and a recognition call that succeeds. -/
def wOk : World :=
  ⟨"t.zip", true, ["p1.png"], none, false, true, [("s", "p1.png")],
   .ok (), fun _ => .ok "T"⟩

/-- A job whose archive holds only a text file: no supported pages. -/
def wNoPages : World :=
  ⟨"t.zip", true, ["doc.txt"], none, false, true, [("s", "doc.txt")],
   .ok (), fun _ => .ok "T"⟩

/-- An upload that is not a zip archive at all. -/
def wNotZip : World :=
  ⟨"t.txt", false, [], none, false, true, [], .ok (), fun _ => .ok "T"⟩

/-- A job with one supported page but missing recognition credentials. -/
def wNoCreds : World :=
  ⟨"t.zip", true, ["p.png"], none, false, true, [("s", "p.png")],
   .error "no credentials", fun _ => .ok "T"⟩

/-- A three-page job whose second page fails recognition. -/
def wThree : World :=
  ⟨"t.zip", true, ["p1.png", "p2.png", "p3.png"], none, false, true,
   [("s", "p1.png"), ("s", "p2.png"), ("s", "p3.png")], .ok (),
   fun p => if p == "s/p2.png" then .error "boom" else .ok "T"⟩

/-- The page list of the three-page job, in scan order. -/
def pages3 : List String := ["s/p1.png", "s/p2.png", "s/p3.png"]

/-- A two-page batch whose second page fails recognition. -/
def pages2 : List String := ["a.png", "b.png"]

/-- Oracles for the two-page batch: the first call extracts the text A,
the second raises. -/
def wTwo : World :=
  ⟨"t.zip", true, [], none, false, true, [], .ok (),
   fun p => if p == "a.png" then .ok "A" else .error "boom"⟩

/-! ### Claim theorems -/

/-- C1 The spec claims the page list returned by scan_for_images is
sorted with NaturalOrdering, so page2.png sorts before page10.png.
The code sorts with plain found_images.sort(), which is code-point
lexicographic and puts page10.png first, while the natural key order
(natural_sort_key, as the legacy module computes it) puts page2.png
first.  The docstring of scan_for_images itself promises a naturally
sorted list, so the code contradicts its own documentation. -/
theorem c1_scan_sort_is_lexicographic_not_natural :
    (scan_for_images [("staging", "page2.png"), ("staging", "page10.png")]).1.1
      = ["staging/page10.png", "staging/page2.png"]
    ∧ natural_lt "staging/page2.png" "staging/page10.png" = true
    ∧ natural_lt "staging/page10.png" "staging/page2.png" = false
    ∧ pyStrLt "staging/page10.png" "staging/page2.png" = true := by
  refine ⟨?_, ?_, ?_, ?_⟩ <;> rfl

/-- C2 counterexample: with pages [a.png, b.png] where recognition of
b.png fails, the pipeline records a non-empty error placeholder for
b.png and the aggregator appends it, so the document is NOT just the
text of the successful page: the failed page does contribute to the
returned document, contrary to the claim. -/
theorem c2_counterexample_failed_page_contributes :
    (aggregate_text_results pages2 (ocr_results_map wTwo pages2)).1
      = "A\n\n[Error processing b.png: See server logs for details]"
    ∧ (aggregate_text_results pages2 (ocr_results_map wTwo pages2)).1 ≠ "A"
    ∧ (wTwo.ocrCall "b.png").isOk = false := by
  refine ⟨rfl, by decide, rfl⟩

/-- C2 amended: the aggregator appends, in page-list order, the text
recorded for each page whenever that text is non-empty; the outcome
map built by perform_ocr_on_images records the recognized text for a
successful page and a non-empty error placeholder for a failed page,
so (for distinct pages whose successful outcomes are non-empty) the
document is the ordered blank-line join of one part per page, where a
failed page contributes its placeholder rather than nothing. -/
theorem c2_aggregate_joins_outcomes_in_order (pages : List String) (w : World)
    (hnd : pages.Nodup) (hok : ocr_ok_nonempty w pages = true) :
    (aggregate_text_results pages (ocr_results_map w pages)).1
      = String.intercalate "\n\n" (pages.map (ocr_outcome w)) := by
  apply aggregate_parts
  intro p hp
  constructor
  · rw [ocr_results_map_eq w pages hnd]
    exact dictGet_map_self (ocr_outcome w) pages p hp
  · exact ocr_outcome_ne_empty w pages p hp hok

/-- C2 witness: the amended statement evaluated on the two-page batch
with a failing second page. -/
theorem c2_witness :
    pages2.Nodup
    ∧ ocr_ok_nonempty wTwo pages2 = true
    ∧ (aggregate_text_results pages2 (ocr_results_map wTwo pages2)).1
        = String.intercalate "\n\n" (pages2.map (ocr_outcome wTwo)) :=
  ⟨by decide, rfl, c2_aggregate_joins_outcomes_in_order pages2 wTwo (by decide) rfl⟩

/-- C10 An empty-string outcome is treated exactly like a missing
outcome: the aggregate is unchanged if the entry is deleted from the
map, and the page is recorded in the missing-outcome warning log,
because the aggregator tests the looked-up value by string truthiness
rather than by map membership. -/
theorem c10_empty_text_treated_as_missing (paths : List String)
    (res : List (String × String)) (p : String)
    (h : dictGet res p = some "") :
    aggregate_text_results paths res = aggregate_text_results paths (dictErase res p)
    ∧ (p ∈ paths → p ∈ (aggregate_text_results paths res).2.1) := by
  constructor
  · unfold aggregate_text_results
    have hpart : (paths.filterMap (fun q =>
        let t := dictGet res q
        if truthy t then t else none))
        = (paths.filterMap (fun q =>
        let t := dictGet (dictErase res p) q
        if truthy t then t else none)) := by
      apply filterMap_congr_local
      intro q _
      by_cases hq : q = p
      · rw [hq, h, dictGet_erase_self]
        rfl
      · rw [dictGet_erase_ne res p q hq]
    have hwarn : (paths.filter (fun q => !truthy (dictGet res q)))
        = (paths.filter (fun q => !truthy (dictGet (dictErase res p) q))) := by
      apply List.filter_congr
      intro q _
      by_cases hq : q = p
      · rw [hq, h, dictGet_erase_self]
        rfl
      · rw [dictGet_erase_ne res p q hq]
    simp only [hpart, hwarn]
  · intro hp
    unfold aggregate_text_results
    simp only
    apply List.mem_filter.mpr
    refine ⟨hp, ?_⟩
    rw [h]
    rfl

/-- The map used by the C10 witness: one page with text, one page with
an empty recognition result. -/
def res10 : List (String × String) := [("x.png", "T"), ("y.png", "")]

/-- C10 witness: evaluated for the page y.png whose recorded text is
the empty string. -/
theorem c10_witness :
    dictGet res10 "y.png" = some ""
    ∧ (aggregate_text_results ["x.png", "y.png"] res10
        = aggregate_text_results ["x.png", "y.png"] (dictErase res10 "y.png")
      ∧ ("y.png" ∈ (["x.png", "y.png"] : List String) →
          "y.png" ∈ (aggregate_text_results ["x.png", "y.png"] res10).2.1)) :=
  ⟨rfl, c10_empty_text_treated_as_missing ["x.png", "y.png"] res10 "y.png" rfl⟩

/-- C3 Once the recognition capability is acquired, the loop processes
every page: the stage returns the full outcome map with an entry for
every input page, emits one OCR_STARTED event per page, and one
OCR_FAILED per failing call and one OCR_SUCCESS per succeeding call;
and a job whose stages otherwise succeed still reaches COMPLETED
regardless of per-page failures. -/
theorem c3_per_page_failure_isolation (pages : List String) (w : World)
    (hc : w.clientInit = .ok ()) :
    (perform_ocr_on_images pages w).1 = .ok (ocr_results_map w pages)
    ∧ pages.all (fun p => (dictGet (ocr_results_map w pages) p).isSome) = true
    ∧ (perform_ocr_on_images pages w).2.countP (fun e => e.event == "OCR_STARTED")
        = pages.length
    ∧ (perform_ocr_on_images pages w).2.countP (fun e => e.event == "OCR_FAILED")
        = pages.countP (fun p => !(w.ocrCall p).isOk)
    ∧ (perform_ocr_on_images pages w).2.countP (fun e => e.event == "OCR_SUCCESS")
        = pages.countP (fun p => (w.ocrCall p).isOk)
    ∧ (w.isZip = true → w.mkdtempOk = true → extraction_ok w = true →
        supported_count w ≠ 0 → (run_job w).terminal = .COMPLETED) := by
  rw [perform_ocr_ok pages w hc]
  obtain ⟨hc1, hc2, hc3⟩ := ocr_page_events_counts w pages.length 0 pages
  refine ⟨rfl, ?_, ?_, ?_, ?_, ?_⟩
  · exact List.all_eq_true.mpr (fun p hp => ocr_map_has_entry w pages p hp)
  · simp [List.countP_append, List.countP_cons, hc1, mkEv]
  · simp [List.countP_append, List.countP_cons, hc2, mkEv]
  · simp [List.countP_append, List.countP_cons, hc3, mkEv]
  · intro h1 h2 h3 h4
    rcases hsc : scan_for_images w.files with ⟨⟨ips, n⟩, sevs⟩
    have hcnt := scan_count w.files
    rw [hsc] at hcnt
    simp only at hcnt
    unfold supported_count at h4
    have hn : n ≠ 0 := by
      rw [hcnt]
      exact h4
    rcases hag : aggregate_text_results ips (ocr_results_map w ips) with ⟨txt, pr⟩
    rw [run_job_eq_completed w _ _ ips n sevs (ocr_results_map w ips) _ txt pr
      (hz_ok w h1 h2 h3) hsc hn (perform_ocr_ok ips w hc) hag]

/-- C3 witness: with three pages of which the second fails, the stage
emits exactly one OCR_FAILED and two OCR_SUCCESS events, the outcome
map covers all three pages, and the job reaches COMPLETED. -/
theorem c3_witness :
    (perform_ocr_on_images pages3 wThree).2.countP (fun e => e.event == "OCR_FAILED") = 1
    ∧ (perform_ocr_on_images pages3 wThree).2.countP (fun e => e.event == "OCR_SUCCESS") = 2
    ∧ (perform_ocr_on_images pages3 wThree).2.countP (fun e => e.event == "OCR_STARTED") = 3
    ∧ pages3.all (fun p => (dictGet (ocr_results_map wThree pages3) p).isSome) = true
    ∧ (run_job wThree).terminal = .COMPLETED := by
  have h := c3_per_page_failure_isolation pages3 wThree rfl
  refine ⟨?_, ?_, ?_, h.2.1, h.2.2.2.2.2 rfl rfl rfl (by decide)⟩
  · rw [h.2.2.2.1]
    decide
  · rw [h.2.2.2.2.1]
    decide
  · rw [h.2.2.1]
    decide

/-- C4 Whenever a run of run_job created the staging directory, that
directory is no longer present in the terminal state and was removed
exactly once, over every success and failure path; and when extraction
fails partway, handle_zip_file itself removes the partially populated
directory before its exception propagates. -/
theorem c4_staging_dir_removed_exactly_once (w : World)
    (h : (run_job w).disk.created = true) :
    (run_job w).disk.present = false
    ∧ (run_job w).disk.removals = 1
    ∧ (w.isZip = true → w.mkdtempOk = true → extraction_fails w = true →
        ((handle_zip_file w).1).isOk = false
        ∧ (handle_zip_file w).2.2 = ⟨true, false, 1⟩) := by
  obtain ⟨h1, h2⟩ := run_disk_facts w h
  exact ⟨h1, h2, fun ha hb hcX => hz_extract_fail w ha hb hcX⟩

/-- C4 witness: a healthy one-page run creates the staging directory
and ends with it removed exactly once. -/
theorem c4_witness :
    (run_job wOk).disk.created = true
    ∧ ((run_job wOk).disk.present = false
      ∧ (run_job wOk).disk.removals = 1
      ∧ (wOk.isZip = true → wOk.mkdtempOk = true → extraction_fails wOk = true →
          ((handle_zip_file wOk).1).isOk = false
          ∧ (handle_zip_file wOk).2.2 = ⟨true, false, 1⟩)) :=
  ⟨rfl, c4_staging_dir_removed_exactly_once wOk rfl⟩

/-- C5 A job whose discovery stage finds zero supported pages ends in
WARNING_NO_PAGES (not FAILED), with exactly one JOB_WARNING event in
its trace and no final document text. -/
theorem c5_zero_pages_yields_warning (w : World)
    (h1 : w.isZip = true) (h2 : w.mkdtempOk = true)
    (h3 : extraction_ok w = true) (h4 : supported_count w = 0) :
    (run_job w).terminal = .WARNING_NO_PAGES
    ∧ (run_job w).terminal ≠ .FAILED
    ∧ (run_job w).events.countP (fun e => e.event == "JOB_WARNING") = 1
    ∧ (run_job w).finalText = none := by
  rcases hsc : scan_for_images w.files with ⟨⟨ips, n⟩, sevs⟩
  have hcnt := scan_count w.files
  rw [hsc] at hcnt
  simp only at hcnt
  unfold supported_count at h4
  have hn0 : n = 0 := by
    rw [hcnt]
    exact h4
  subst hn0
  rw [run_job_eq_warning w _ _ ips sevs (hz_ok w h1 h2 h3) hsc]
  have hzv := zip_events_tame w
  rw [hz_ok w h1 h2 h3] at hzv
  simp only at hzv
  have hsv := scan_events_tame w.files
  rw [hsc] at hsv
  simp only at hsv
  have hz0 := count_named_zero_of_tame "JOB_WARNING" (by rfl) hzv
  have hs0 := count_named_zero_of_tame "JOB_WARNING" (by rfl) hsv
  refine ⟨rfl, by exact fun hEq => Terminal.noConfusion hEq, ?_, rfl⟩
  simp only [List.countP_cons, List.countP_append, List.countP_nil, hz0, hs0]
  simp [mkEv]

/-- C5 witness: an archive holding only a text file. -/
theorem c5_witness :
    wNoPages.isZip = true
    ∧ supported_count wNoPages = 0
    ∧ ((run_job wNoPages).terminal = .WARNING_NO_PAGES
      ∧ (run_job wNoPages).terminal ≠ .FAILED
      ∧ (run_job wNoPages).events.countP (fun e => e.event == "JOB_WARNING") = 1
      ∧ (run_job wNoPages).finalText = none) :=
  ⟨rfl, by decide, c5_zero_pages_yields_warning wNoPages rfl rfl rfl (by decide)⟩

/-- C6 A file that zipfile.is_zipfile rejects (the container signature
check, which never looks at the file name) makes handle_zip_file raise
ValueError before any staging directory is created, and the job ends
FAILED. -/
theorem c6_invalid_archive_no_staging_dir (w : World) (h : w.isZip = false) :
    (handle_zip_file w).1
      = .error (.validation "Uploaded file is not a valid ZIP archive.")
    ∧ (handle_zip_file w).2.2.created = false
    ∧ (handle_zip_file w).2.2.present = false
    ∧ (run_job w).terminal = .FAILED := by
  rw [run_job_eq_validation w _ _ _ (hz_not_zip w h), hz_not_zip w h]
  exact ⟨rfl, rfl, rfl, rfl⟩

/-- C6 witness: a plain text upload. -/
theorem c6_witness :
    wNotZip.isZip = false
    ∧ ((handle_zip_file wNotZip).1
        = .error (.validation "Uploaded file is not a valid ZIP archive.")
      ∧ (handle_zip_file wNotZip).2.2.created = false
      ∧ (handle_zip_file wNotZip).2.2.present = false
      ∧ (run_job wNotZip).terminal = .FAILED) :=
  ⟨rfl, c6_invalid_archive_no_staging_dir wNotZip rfl⟩

/-- C7 When acquisition of the recognition client fails, the stage
returns the configuration error before any page is touched: no
per-page event of any kind is emitted, and a job that reaches the
recognition stage with such a failure terminates FAILED. -/
theorem c7_config_error_fatal (pages : List String) (w : World) (e : String)
    (hc : w.clientInit = .error e) :
    (perform_ocr_on_images pages w).1 = .error e
    ∧ (perform_ocr_on_images pages w).2.countP (fun ev => ev.event == "OCR_STARTED") = 0
    ∧ (perform_ocr_on_images pages w).2.countP (fun ev => ev.event == "OCR_SUCCESS") = 0
    ∧ (perform_ocr_on_images pages w).2.countP (fun ev => ev.event == "OCR_FAILED") = 0
    ∧ (w.isZip = true → w.mkdtempOk = true → extraction_ok w = true →
        supported_count w ≠ 0 → (run_job w).terminal = .FAILED) := by
  rw [perform_ocr_err pages w e hc]
  refine ⟨rfl, rfl, rfl, rfl, ?_⟩
  intro h1 h2 h3 h4
  rcases hsc : scan_for_images w.files with ⟨⟨ips, n⟩, sevs⟩
  have hcnt := scan_count w.files
  rw [hsc] at hcnt
  simp only at hcnt
  unfold supported_count at h4
  have hn : n ≠ 0 := by
    rw [hcnt]
    exact h4
  rw [run_job_eq_ocrfail w _ _ ips n sevs e _ (hz_ok w h1 h2 h3) hsc hn
    (perform_ocr_err ips w e hc)]

/-- C7 witness: a one-page job with missing credentials. -/
theorem c7_witness :
    wNoCreds.clientInit = .error "no credentials"
    ∧ (perform_ocr_on_images ["s/p.png"] wNoCreds).1 = .error "no credentials"
    ∧ (perform_ocr_on_images ["s/p.png"] wNoCreds).2.countP
        (fun ev => ev.event == "OCR_STARTED") = 0
    ∧ (run_job wNoCreds).terminal = .FAILED := by
  have h := c7_config_error_fatal ["s/p.png"] wNoCreds "no credentials" rfl
  exact ⟨rfl, h.1, h.2.1, h.2.2.2.2 rfl rfl rfl (by decide)⟩

/-- C8 For every world, the event trace of run_job starts with
JOB_STARTED, holds exactly one terminal event (JOB_COMPLETED,
JOB_WARNING or JOB_FAILED), and that terminal event is the last event
of the trace, so nothing is emitted after it. -/
theorem c8_trace_starts_and_ends_once (w : World) :
    ((run_job w).events.map Event.event).head? = some "JOB_STARTED"
    ∧ (run_job w).events.countP isTerminalEvent = 1
    ∧ ((run_job w).events.getLast?.map isTerminalEvent) = some true := by
  obtain ⟨h1, h2, h3, _⟩ := run_trace_facts w
  exact ⟨h1, h2, h3⟩

/-- C9 The formatted record always carries exactly the six fields
timestamp, event, status, severity, message, data in that order; a
missing payload becomes the empty data object; the Severity wire
values are exactly the five listed strings; and every event any run
of the pipeline emits uses one of the four contract statuses. -/
theorem c9_event_record_shape (tsIso event_name status : String) (sev : Severity)
    (msg : String) (d : List (String × PyVal)) (w : World) :
    (format_event tsIso event_name status sev msg (some d)).map Prod.fst
        = ["timestamp", "event", "status", "severity", "message", "data"]
    ∧ (format_event tsIso event_name status sev msg none).map Prod.fst
        = ["timestamp", "event", "status", "severity", "message", "data"]
    ∧ dictGet (format_event tsIso event_name status sev msg none) "data"
        = some (.obj [])
    ∧ (["DEBUG", "INFO", "SUCCESS", "WARNING", "ERROR"].contains sev.value) = true
    ∧ (run_job w).events.all statusOk = true := by
  refine ⟨rfl, rfl, rfl, ?_, (run_trace_facts w).2.2.2⟩
  cases sev <;> rfl

end Zip2Text
